import Mathlib

/-!
# Verification of the heading-anchor routine (src/static/js/custom.js)

The script in `src/static/js/custom.js` runs once on the browser `load`
event.  It selects all elements matching the CSS selector
`"h1[id], h2[id], h3[id]"` and, for each selected heading in document
order, creates an `<a>` element, adds the class `has-anchor` to the
heading, adds the class `heading-anchor` to the anchor, sets the anchor's
`href` attribute to `"#" + heading.id`, and prepends the anchor as the
heading's first child.

We embed the DOM fragment the script touches as a tree of elements.
Each element carries a tag name, an attribute list (association list of
name/value pairs, as in the DOM: `getAttribute` returns null when absent),
a class list (the `DOMTokenList` exposed as `classList`, which the DOM
maintains as an ordered set of tokens), and a list of child elements in
document order.
-/

namespace HeadingAnchors

/-- A DOM element: tag name, attributes, class token list (`classList`),
and children in document order. -/
inductive Elem : Type where
  | mk (tag : String) (attrs : List (String × String))
       (classes : List String) (children : List Elem) : Elem

/-- The element's tag name. -/
def Elem.tag : Elem → String
  | .mk t _ _ _ => t

/-- The element's attribute list. -/
def Elem.attrs : Elem → List (String × String)
  | .mk _ a _ _ => a

/-- The element's class token list (`classList`). -/
def Elem.classes : Elem → List String
  | .mk _ _ c _ => c

/-- The element's children, in document order. -/
def Elem.children : Elem → List Elem
  | .mk _ _ _ cs => cs

/-- `getAttribute`: look up an attribute by name in the attribute list;
`none` models the DOM's null for an absent attribute. -/
def getAttr : List (String × String) → String → Option String
  | [], _ => none
  | (k, v) :: rest, n => if k = n then some v else getAttr rest n

/-- `setAttribute`: replace the first binding of the name, or append a new
binding when the attribute is absent. -/
def setAttr : List (String × String) → String → String → List (String × String)
  | [], n, v => [(n, v)]
  | (k, w) :: rest, n, v =>
      if k = n then (n, v) :: rest else (k, w) :: setAttr rest n v

/-- `element.id`: the reflected `id` attribute, the empty string when the
attribute is absent. -/
def idOf (e : Elem) : String := (getAttr e.attrs "id").getD ""

/-- `classList.add tok`: append the token unless it is already present
(DOMTokenList add semantics). -/
def classListAdd (cl : List String) (tok : String) : List String :=
  if cl.contains tok then cl else cl ++ [tok]

/-- Whether an element matches the CSS selector
`"h1[id], h2[id], h3[id]"` of `addAnchors` (line 11 of custom.js):
tag `h1`, `h2` or `h3`, and the `id` attribute present — the CSS `[id]`
test is attribute presence, whatever the value. -/
def matchesSel (e : Elem) : Bool :=
  (e.tag == "h1" || e.tag == "h2" || e.tag == "h3")
    && (getAttr e.attrs "id").isSome

/-- `addAnchor heading` (lines 2-8 of custom.js): create an `<a>` element,
add class `has-anchor` to the heading, add class `heading-anchor` to the
anchor, set the anchor's `href` to `"#" + heading.id`, and prepend the
anchor to the heading's children. -/
def addAnchor (heading : Elem) : Elem :=
  let anchor : Elem := .mk "a" [] [] []
  let heading' : Elem :=
    .mk heading.tag heading.attrs (classListAdd heading.classes "has-anchor")
      heading.children
  let anchor : Elem :=
    .mk anchor.tag anchor.attrs (classListAdd anchor.classes "heading-anchor")
      anchor.children
  let anchor : Elem :=
    .mk anchor.tag (setAttr anchor.attrs "href" ("#" ++ idOf heading'))
      anchor.classes anchor.children
  .mk heading'.tag heading'.attrs heading'.classes
    (anchor :: heading'.children)

/-- `addAnchors` (lines 10-13 of custom.js) as a structural pass over the
document tree: `document.querySelectorAll` collects the matching headings
of the (static) tree and `forEach(addAnchor)` mutates each one locally —
each call touches only its own heading's class list and child list, so
the traversal is equivalent to rebuilding the tree, applying `addAnchor`
at every node that matches the selector. -/
def addAnchors : Elem → Elem
  | .mk t a c cs =>
      let e' : Elem := .mk t a c (cs.attach.map fun x => addAnchors x.val)
      if matchesSel e' then addAnchor e' else e'
termination_by e => sizeOf e
decreasing_by
  have hx := List.sizeOf_lt_of_mem x.property
  simp only [Elem.mk.sizeOf_spec]
  omega

/-- `document.querySelectorAll "h1[id], h2[id], h3[id]"`: the matching
elements of the tree in document order (pre-order traversal). -/
def querySelectorAll : Elem → List Elem
  | .mk t a c cs =>
      (if matchesSel (.mk t a c cs) then [Elem.mk t a c cs] else [])
        ++ (cs.attach.map fun x => querySelectorAll x.val).flatten
termination_by e => sizeOf e
decreasing_by
  have hx := List.sizeOf_lt_of_mem x.property
  simp only [Elem.mk.sizeOf_spec]
  omega

/-- The anchor element `addAnchor` builds for a heading whose `id` is `i`:
`<a href="#i" class="heading-anchor"></a>`. -/
def anchorElem (i : String) : Elem :=
  .mk "a" [("href", "#" ++ i)] ["heading-anchor"] []

/-- Number of element nodes in the tree. -/
def totalCount : Elem → Nat
  | .mk _ _ _ cs => 1 + (cs.attach.map fun x => totalCount x.val).sum
termination_by e => sizeOf e
decreasing_by
  have hx := List.sizeOf_lt_of_mem x.property
  simp only [Elem.mk.sizeOf_spec]
  omega

/-- All element nodes of the tree in document order (pre-order). -/
def preorder : Elem → List Elem
  | .mk t a c cs =>
      Elem.mk t a c cs :: (cs.attach.map fun x => preorder x.val).flatten
termination_by e => sizeOf e
decreasing_by
  have hx := List.sizeOf_lt_of_mem x.property
  simp only [Elem.mk.sizeOf_spec]
  omega

/-- `Occurs h d`: the element `h` is a node of the tree `d` (it is `d`
itself or sits somewhere below it). -/
inductive Occurs : Elem → Elem → Prop where
  | refl (e : Elem) : Occurs e e
  | child {e c d : Elem} (hc : c ∈ d.children) (h : Occurs e c) : Occurs e d

/-- `<h2 id="intro">` from the spec's concrete scenario. -/
def h2intro : Elem := .mk "h2" [("id", "intro")] [] []

/-- `<h4 id="note">` from the spec's concrete scenario. -/
def h4note : Elem := .mk "h4" [("id", "note")] [] []

/-- A document holding the spec's concrete scenario. -/
def sampleDoc : Elem := .mk "body" [] [] [h2intro, h4note]

/-- A level-2 heading whose `id` attribute is present but empty. -/
def h2empty : Elem := .mk "h2" [("id", "")] [] []

/-- A level-2 heading with no `id` attribute at all. -/
def h2noid : Elem := .mk "h2" [] [] []

/-- A document with no heading matching the selector. -/
def plainDoc : Elem := .mk "body" [] [] [.mk "p" [] [] [], h2noid]

/-- A heading element: tag `h1` through `h6`. -/
def isHeading (e : Elem) : Bool :=
  e.tag == "h1" || e.tag == "h2" || e.tag == "h3"
    || e.tag == "h4" || e.tag == "h5" || e.tag == "h6"

/-! ## Helper lemmas -/

/-- Unfolding equation for `addAnchors` with the `attach` removed. -/
theorem addAnchors_mk (t : String) (a : List (String × String))
    (c : List String) (cs : List Elem) :
    addAnchors (.mk t a c cs) =
      (if matchesSel (.mk t a c (cs.map addAnchors))
        then addAnchor (.mk t a c (cs.map addAnchors))
        else .mk t a c (cs.map addAnchors)) := by
  rw [addAnchors]
  simp only [List.attach_map_val]

/-- Unfolding equation for `querySelectorAll` with the `attach` removed. -/
theorem querySelectorAll_mk (t : String) (a : List (String × String))
    (c : List String) (cs : List Elem) :
    querySelectorAll (.mk t a c cs) =
      (if matchesSel (.mk t a c cs) then [Elem.mk t a c cs] else [])
        ++ (cs.map querySelectorAll).flatten := by
  rw [querySelectorAll]
  simp only [List.attach_map_val]

@[simp] theorem Elem.tag_mk (t : String) (a : List (String × String))
    (c : List String) (cs : List Elem) : (Elem.mk t a c cs).tag = t := rfl

@[simp] theorem Elem.attrs_mk (t : String) (a : List (String × String))
    (c : List String) (cs : List Elem) : (Elem.mk t a c cs).attrs = a := rfl

@[simp] theorem Elem.classes_mk (t : String) (a : List (String × String))
    (c : List String) (cs : List Elem) : (Elem.mk t a c cs).classes = c := rfl

@[simp] theorem Elem.children_mk (t : String) (a : List (String × String))
    (c : List String) (cs : List Elem) : (Elem.mk t a c cs).children = cs := rfl

/-- Unfolding equation for `totalCount` with the `attach` removed. -/
theorem totalCount_mk (t : String) (a : List (String × String))
    (c : List String) (cs : List Elem) :
    totalCount (.mk t a c cs) = 1 + (cs.map totalCount).sum := by
  rw [totalCount]
  simp only [List.attach_map_val]

/-- Unfolding equation for `preorder` with the `attach` removed. -/
theorem preorder_mk (t : String) (a : List (String × String))
    (c : List String) (cs : List Elem) :
    preorder (.mk t a c cs) =
      Elem.mk t a c cs :: (cs.map preorder).flatten := by
  rw [preorder]
  simp only [List.attach_map_val]

/-- The selector test only looks at the tag and the attributes. -/
theorem matchesSel_congr {e f : Elem} (ht : e.tag = f.tag)
    (ha : e.attrs = f.attrs) : matchesSel e = matchesSel f := by
  unfold matchesSel
  rw [ht, ha]

/-- `addAnchor` rewritten in closed form: the heading keeps its tag and
attributes, gains the `has-anchor` class, and the fresh anchor element is
prepended to its children. -/
theorem addAnchor_eq (e : Elem) :
    addAnchor e = Elem.mk e.tag e.attrs (classListAdd e.classes "has-anchor")
      (anchorElem (idOf e) :: e.children) := by
  cases e with
  | mk t a c cs => rfl

/-- `addAnchors` on a matching element. -/
theorem addAnchors_match {e : Elem} (h : matchesSel e = true) :
    addAnchors e = Elem.mk e.tag e.attrs (classListAdd e.classes "has-anchor")
      (anchorElem (idOf e) :: e.children.map addAnchors) := by
  cases e with
  | mk t a c cs =>
      rw [addAnchors_mk]
      have hm : matchesSel (Elem.mk t a c (cs.map addAnchors)) = true := h
      rw [if_pos hm, addAnchor_eq]
      rfl

/-- `addAnchors` on a non-matching element. -/
theorem addAnchors_nomatch {e : Elem} (h : matchesSel e = false) :
    addAnchors e = Elem.mk e.tag e.attrs e.classes
      (e.children.map addAnchors) := by
  cases e with
  | mk t a c cs =>
      rw [addAnchors_mk]
      have hm : matchesSel (Elem.mk t a c (cs.map addAnchors)) = false := h
      rw [if_neg (by simp [hm])]
      rfl

/-- The routine never changes an element's tag. -/
theorem tag_addAnchors (e : Elem) : (addAnchors e).tag = e.tag := by
  cases hm : matchesSel e with
  | true => rw [addAnchors_match hm]; rfl
  | false => rw [addAnchors_nomatch hm]; rfl

/-- The routine never changes an element's attribute list. -/
theorem attrs_addAnchors (e : Elem) : (addAnchors e).attrs = e.attrs := by
  cases hm : matchesSel e with
  | true => rw [addAnchors_match hm]; rfl
  | false => rw [addAnchors_nomatch hm]; rfl

/-- The routine never changes whether an element matches the selector. -/
theorem matchesSel_addAnchors (e : Elem) :
    matchesSel (addAnchors e) = matchesSel e :=
  matchesSel_congr (tag_addAnchors e) (attrs_addAnchors e)

/-- The routine never changes an element's reflected `id`. -/
theorem idOf_addAnchors (e : Elem) : idOf (addAnchors e) = idOf e := by
  unfold idOf
  rw [attrs_addAnchors]

/-- Processed children of an element are the processed originals, whether
or not an anchor was prepended in front of them. -/
theorem children_addAnchors (e : Elem) :
    (addAnchors e).children = e.children.map addAnchors ∨
    (addAnchors e).children =
      anchorElem (idOf e) :: e.children.map addAnchors := by
  cases hm : matchesSel e with
  | true => exact Or.inr (by rw [addAnchors_match hm]; rfl)
  | false => exact Or.inl (by rw [addAnchors_nomatch hm]; rfl)

/-- Each node of the input tree survives, processed, as a node of the
output tree: `addAnchors` acts structurally. -/
theorem occurs_addAnchors {h d : Elem} (ho : Occurs h d) :
    Occurs (addAnchors h) (addAnchors d) := by
  induction ho with
  | refl => exact Occurs.refl _
  | @child c d' hc hp ih =>
      have hmem : addAnchors c ∈ (addAnchors d').children := by
        rcases children_addAnchors d' with hch | hch
        · rw [hch]; exact List.mem_map_of_mem addAnchors hc
        · rw [hch]; exact List.mem_cons_of_mem _ (List.mem_map_of_mem addAnchors hc)
      exact Occurs.child hmem ih

/-- Induction over the element tree: to prove a property of every
element it is enough to prove it for an element assuming it for all of
its children. -/
theorem Elem.inductionOn (P : Elem → Prop)
    (step : ∀ t a c cs, (∀ e, e ∈ cs → P e) → P (.mk t a c cs)) :
    ∀ e, P e
  | .mk t a c cs => step t a c cs (fun e he => Elem.inductionOn P step e)
termination_by e => sizeOf e
decreasing_by
  have hx := List.sizeOf_lt_of_mem he
  simp only [Elem.mk.sizeOf_spec]
  omega

/-- When the selection is empty the pass is the identity on the tree. -/
theorem addAnchors_qsa_nil :
    ∀ e : Elem, querySelectorAll e = [] → addAnchors e = e := by
  refine Elem.inductionOn _ ?_
  intro t a c cs ih hq
  rw [querySelectorAll_mk] at hq
  rcases List.append_eq_nil.mp hq with ⟨h1, h2⟩
  have hm : matchesSel (Elem.mk t a c cs) = false := by
    by_contra hmc
    rw [if_pos (by revert hmc; cases matchesSel (Elem.mk t a c cs) <;> simp)]
      at h1
    exact List.cons_ne_nil _ _ h1
  rw [addAnchors_nomatch hm]
  simp only [Elem.tag_mk, Elem.attrs_mk, Elem.classes_mk, Elem.children_mk]
  have hcs : cs.map addAnchors = cs := by
    have hmap : cs.map addAnchors = cs.map id := by
      refine List.map_congr_left ?_
      intro x hx
      refine ih x hx ?_
      have := List.flatten_eq_nil_iff.mp h2 (querySelectorAll x)
        (List.mem_map_of_mem querySelectorAll hx)
      exact this
    rw [hmap, List.map_id]
  rw [hcs]

/-- Sums of pointwise sums of two functions over a list split. -/
theorem sum_map_add (f g : Elem → Nat) (l : List Elem) :
    (l.map fun x => f x + g x).sum = (l.map f).sum + (l.map g).sum := by
  induction l with
  | nil => rfl
  | cons a l ih =>
      simp only [List.map_cons, List.sum_cons, ih]
      omega

/-- The fresh anchor is a single node. -/
theorem totalCount_anchorElem (i : String) : totalCount (anchorElem i) = 1 := by
  rw [anchorElem, totalCount_mk]
  rfl

/-- Node count after the pass: the tree grows by exactly one node per
selected heading. -/
theorem totalCount_addAnchors :
    ∀ e : Elem,
      totalCount (addAnchors e) = totalCount e + (querySelectorAll e).length := by
  refine Elem.inductionOn _ ?_
  intro t a c cs ih
  have hmap : cs.map (fun x => totalCount (addAnchors x)) =
      cs.map (fun x => totalCount x + (querySelectorAll x).length) :=
    List.map_congr_left (fun x hx => ih x hx)
  cases hm : matchesSel (Elem.mk t a c cs) with
  | true =>
      have hlen : (querySelectorAll (Elem.mk t a c cs)).length =
          1 + (cs.map fun x => (querySelectorAll x).length).sum := by
        rw [querySelectorAll_mk, if_pos hm]
        simp [List.length_flatten, Function.comp_def]
        omega
      rw [addAnchors_match hm]
      simp only [Elem.tag_mk, Elem.attrs_mk, Elem.classes_mk, Elem.children_mk]
      rw [totalCount_mk, totalCount_mk]
      simp only [List.map_cons, List.sum_cons, totalCount_anchorElem,
        List.map_map, Function.comp_def, hmap, sum_map_add]
      rw [hlen]
      omega
  | false =>
      have hlen : (querySelectorAll (Elem.mk t a c cs)).length =
          (cs.map fun x => (querySelectorAll x).length).sum := by
        rw [querySelectorAll_mk, if_neg (by rw [hm]; exact Bool.false_ne_true)]
        simp [List.length_flatten, Function.comp_def]
      rw [addAnchors_nomatch hm]
      simp only [Elem.tag_mk, Elem.attrs_mk, Elem.classes_mk, Elem.children_mk]
      rw [totalCount_mk, totalCount_mk]
      simp only [List.map_map, Function.comp_def, hmap, sum_map_add]
      rw [hlen]
      omega

/-- The selection is the document-order (pre-order) node list filtered by
the selector. -/
theorem querySelectorAll_eq_filter_preorder :
    ∀ e : Elem, querySelectorAll e = (preorder e).filter matchesSel := by
  refine Elem.inductionOn _ ?_
  intro t a c cs ih
  rw [querySelectorAll_mk, preorder_mk, List.filter_cons]
  have hmap : (cs.map preorder).map (List.filter matchesSel) =
      cs.map querySelectorAll := by
    rw [List.map_map]
    exact List.map_congr_left (fun x hx => (ih x hx).symm)
  cases hm : matchesSel (Elem.mk t a c cs) with
  | true =>
      rw [if_pos rfl, if_pos rfl]
      rw [List.filter_flatten, hmap]
      rfl
  | false =>
      rw [if_neg Bool.false_ne_true, if_neg Bool.false_ne_true]
      rw [List.filter_flatten, hmap]
      rfl

/-- Adding a token that is in the list at most once leaves it present
exactly once. -/
theorem count_classListAdd_self (cl : List String) (tok : String)
    (h : cl.count tok ≤ 1) : (classListAdd cl tok).count tok = 1 := by
  unfold classListAdd
  by_cases hc : cl.contains tok
  · rw [if_pos hc]
    have hmem : tok ∈ cl := List.elem_iff.mp hc
    have := List.count_pos_iff.mpr hmem
    omega
  · rw [if_neg hc]
    have hmem : tok ∉ cl := fun hx => hc (List.elem_iff.mpr hx)
    rw [List.count_append, List.count_eq_zero.mpr hmem]
    simp

/-- The added token is a member afterwards. -/
theorem self_mem_classListAdd (cl : List String) (tok : String) :
    tok ∈ classListAdd cl tok := by
  unfold classListAdd
  by_cases hc : cl.contains tok
  · rw [if_pos hc]
    exact List.elem_iff.mp hc
  · rw [if_neg hc]
    exact List.mem_append_right _ (List.mem_singleton_self tok)

/-- `classList.add` never pushes a token's count above one. -/
theorem count_classListAdd_le_one (cl : List String) (tok : String)
    (h : cl.count tok ≤ 1) : (classListAdd cl tok).count tok ≤ 1 :=
  le_of_eq (count_classListAdd_self cl tok h)

/-- The pass leaves the fresh anchors themselves alone: they are not
headings. -/
theorem addAnchors_anchorElem (i : String) :
    addAnchors (anchorElem i) = anchorElem i := by
  rw [anchorElem, addAnchors_mk]
  rw [List.map_nil]
  have hm : matchesSel (Elem.mk "a" [("href", "#" ++ i)] ["heading-anchor"] [])
      = false := rfl
  rw [if_neg (by rw [hm]; exact Bool.false_ne_true)]

/-- Iterating the pass never changes whether an element matches. -/
theorem matchesSel_iterate (e : Elem) (n : Nat) :
    matchesSel ((addAnchors)^[n] e) = matchesSel e := by
  induction n with
  | zero => rfl
  | succ n ih =>
      rw [Function.iterate_succ_apply', matchesSel_addAnchors, ih]

/-- Iterating the pass never changes an element's reflected `id`. -/
theorem idOf_iterate (e : Elem) (n : Nat) :
    idOf ((addAnchors)^[n] e) = idOf e := by
  induction n with
  | zero => rfl
  | succ n ih =>
      rw [Function.iterate_succ_apply', idOf_addAnchors, ih]

/-- After any positive number of passes over a matching heading whose
class list holds `has-anchor` at most once, the class list holds it
exactly once. -/
theorem count_iterate_classes (e : Elem) (hm : matchesSel e = true)
    (hc : e.classes.count "has-anchor" ≤ 1) (n : Nat) :
    ((addAnchors)^[n + 1] e).classes.count "has-anchor" = 1 := by
  induction n with
  | zero =>
      rw [Function.iterate_one, addAnchors_match hm]
      exact count_classListAdd_self _ _ hc
  | succ n ih =>
      rw [Function.iterate_succ_apply']
      have hm' : matchesSel ((addAnchors)^[n + 1] e) = true := by
        rw [matchesSel_iterate]; exact hm
      rw [addAnchors_match hm']
      simp only [Elem.classes_mk]
      exact count_classListAdd_self _ _ (le_of_eq ih)

/-! ## Claim theorems -/

/-- C1: for every heading element of level 1, 2 or 3 that carries a
non-empty `id` attribute and is present in the DOM when the routine runs,
after the routine runs the heading's first child is an anchor (link)
element whose `href` attribute equals `"#"` concatenated with that
heading's `id`. -/
theorem C1_anchor_first_child {d h : Elem} {i : String} (ho : Occurs h d)
    (ht : h.tag = "h1" ∨ h.tag = "h2" ∨ h.tag = "h3")
    (hi : getAttr h.attrs "id" = some i) (hne : i ≠ "") :
    Occurs (addAnchors h) (addAnchors d) ∧
    ∃ a, (addAnchors h).children.head? = some a ∧ a.tag = "a" ∧
      getAttr a.attrs "href" = some ("#" ++ i) := by
  have hm : matchesSel h = true := by
    unfold matchesSel
    rcases ht with h1 | h1 | h1 <;> rw [h1, hi] <;> rfl
  refine ⟨occurs_addAnchors ho, anchorElem i, ?_, rfl, ?_⟩
  · rw [addAnchors_match hm]
    have hid : idOf h = i := by unfold idOf; rw [hi]; rfl
    rw [hid]
    rfl
  · rw [anchorElem]
    simp only [Elem.attrs_mk]
    rw [getAttr, if_pos rfl]

/-- C1 witness at the spec's concrete scenario. -/
theorem C1_anchor_first_child_witness :
    Occurs (addAnchors h2intro) (addAnchors sampleDoc) ∧
    ∃ a, (addAnchors h2intro).children.head? = some a ∧ a.tag = "a" ∧
      getAttr a.attrs "href" = some ("#" ++ "intro") :=
  C1_anchor_first_child
    (Occurs.child (List.mem_cons_self h2intro [h4note]) (Occurs.refl h2intro))
    (Or.inr (Or.inl rfl)) rfl (by decide)

/-- C2 fails on the code: the selector `h2[id]` tests attribute
PRESENCE, not non-emptiness, so `<h2 id="">` is selected, gains the
`has-anchor` class and receives an anchor whose `href` is `"#"`. -/
theorem C2_empty_id_counterexample :
    matchesSel h2empty = true ∧
    (addAnchors h2empty).classes = ["has-anchor"] ∧
    (addAnchors h2empty).children = [anchorElem ""] ∧
    getAttr (anchorElem "").attrs "href" = some "#" := by
  refine ⟨rfl, ?_, ?_, by decide⟩
  · rw [addAnchors_match (show matchesSel h2empty = true from rfl)]
    rfl
  · rw [addAnchors_match (show matchesSel h2empty = true from rfl)]
    rfl

/-- C2 amended: the routine inserts anchors into exactly those headings
of level 1-3 whose `id` attribute is present, whatever its value: a
level 1-3 heading whose `id` attribute is present but equal to the empty
string IS selected and receives an anchor and the marker class, while an
element that is not an `h1`/`h2`/`h3` or lacks the `id` attribute keeps
its classes and its child count. -/
theorem C2_selection_iff_id_present (e : Elem) :
    (matchesSel e = true ↔
      ((e.tag = "h1" ∨ e.tag = "h2" ∨ e.tag = "h3") ∧
        (getAttr e.attrs "id").isSome = true)) ∧
    (matchesSel e = true →
      (addAnchors e).children.head? = some (anchorElem (idOf e)) ∧
      "has-anchor" ∈ (addAnchors e).classes) ∧
    (matchesSel e = false →
      (addAnchors e).classes = e.classes ∧
      (addAnchors e).children.length = e.children.length) := by
  refine ⟨?_, ?_, ?_⟩
  · unfold matchesSel
    simp only [Bool.and_eq_true, Bool.or_eq_true, beq_iff_eq]
    tauto
  · intro hm
    rw [addAnchors_match hm]
    exact ⟨rfl, self_mem_classListAdd _ _⟩
  · intro hm
    rw [addAnchors_nomatch hm]
    simp [List.length_map]

/-- C2 amended witness: the empty-`id` heading is selected, and the
`id`-less heading keeps its classes and child count. -/
theorem C2_selection_iff_id_present_witness :
    ((addAnchors h2empty).children.head? = some (anchorElem (idOf h2empty)) ∧
      "has-anchor" ∈ (addAnchors h2empty).classes) ∧
    ((addAnchors h2noid).classes = h2noid.classes ∧
      (addAnchors h2noid).children.length = h2noid.children.length) :=
  ⟨(C2_selection_iff_id_present h2empty).2.1 rfl,
   (C2_selection_iff_id_present h2noid).2.2 rfl⟩

/-- C3: the routine is not idempotent: a second run inserts a second
anchor into every qualifying heading, so after two runs such a heading
starts with two inserted anchor elements and its child count has grown
by two. -/
theorem C3_second_run_duplicates {d h : Elem} (ho : Occurs h d)
    (hm : matchesSel h = true) :
    Occurs (addAnchors (addAnchors h)) (addAnchors (addAnchors d)) ∧
    (addAnchors (addAnchors h)).children =
      anchorElem (idOf h) :: anchorElem (idOf h) ::
        (h.children.map addAnchors).map addAnchors ∧
    (addAnchors (addAnchors h)).children.length = h.children.length + 2 ∧
    (anchorElem (idOf h)).tag = "a" := by
  have hm1 : matchesSel (addAnchors h) = true := by
    rw [matchesSel_addAnchors]
    exact hm
  have hch : (addAnchors (addAnchors h)).children =
      anchorElem (idOf h) :: anchorElem (idOf h) ::
        (h.children.map addAnchors).map addAnchors := by
    rw [addAnchors_match hm1]
    simp only [Elem.children_mk]
    rw [idOf_addAnchors]
    congr 1
    rw [addAnchors_match hm]
    simp only [Elem.children_mk, List.map_cons]
    rw [addAnchors_anchorElem]
  refine ⟨occurs_addAnchors (occurs_addAnchors ho), hch, ?_, rfl⟩
  rw [hch]
  simp only [List.length_cons, List.length_map]

/-- C3 witness at the concrete `<h2 id="intro">` heading. -/
theorem C3_second_run_duplicates_witness :
    (addAnchors (addAnchors h2intro)).children =
      anchorElem (idOf h2intro) :: anchorElem (idOf h2intro) ::
        (h2intro.children.map addAnchors).map addAnchors ∧
    (addAnchors (addAnchors h2intro)).children.length =
      h2intro.children.length + 2 :=
  ⟨(C3_second_run_duplicates (Occurs.refl h2intro) rfl).2.1,
   (C3_second_run_duplicates (Occurs.refl h2intro) rfl).2.2.1⟩

/-- C4: every heading element lacking an `id` attribute is left
unmodified by the routine: same tag, attributes and classes, and no link
inserted (its children are exactly the recursively processed originals,
with unchanged count). -/
theorem C4_no_id_untouched {h : Elem} (hh : isHeading h = true)
    (hid : getAttr h.attrs "id" = none) :
    (addAnchors h).tag = h.tag ∧ (addAnchors h).attrs = h.attrs ∧
    (addAnchors h).classes = h.classes ∧
    (addAnchors h).children = h.children.map addAnchors ∧
    (addAnchors h).children.length = h.children.length := by
  have hm : matchesSel h = false := by
    unfold matchesSel
    rw [hid]
    simp
  rw [addAnchors_nomatch hm]
  simp [List.length_map]

/-- C4 witness at a level-2 heading with no `id`. -/
theorem C4_no_id_untouched_witness :
    (addAnchors h2noid).tag = h2noid.tag ∧
    (addAnchors h2noid).attrs = h2noid.attrs ∧
    (addAnchors h2noid).classes = h2noid.classes ∧
    (addAnchors h2noid).children = h2noid.children.map addAnchors ∧
    (addAnchors h2noid).children.length = h2noid.children.length :=
  C4_no_id_untouched (h := h2noid) rfl rfl

/-- C5: heading elements of level 4, 5 or 6 are never modified by the
routine, whether or not they carry an `id` attribute: no anchor is
inserted and no class is added. -/
theorem C5_h456_untouched {h : Elem}
    (ht : h.tag = "h4" ∨ h.tag = "h5" ∨ h.tag = "h6") :
    (addAnchors h).tag = h.tag ∧ (addAnchors h).attrs = h.attrs ∧
    (addAnchors h).classes = h.classes ∧
    (addAnchors h).children = h.children.map addAnchors ∧
    (addAnchors h).children.length = h.children.length := by
  have hm : matchesSel h = false := by
    unfold matchesSel
    rcases ht with h1 | h1 | h1 <;> rw [h1] <;> rfl
  rw [addAnchors_nomatch hm]
  simp [List.length_map]

/-- C5 witness at the spec's `<h4 id="note">`, which carries an `id`. -/
theorem C5_h456_untouched_witness :
    (addAnchors h4note).tag = h4note.tag ∧
    (addAnchors h4note).attrs = h4note.attrs ∧
    (addAnchors h4note).classes = h4note.classes ∧
    (addAnchors h4note).children = h4note.children.map addAnchors ∧
    (addAnchors h4note).children.length = h4note.children.length :=
  C5_h456_untouched (h := h4note) (Or.inl rfl)

/-- C6: with zero headings matching the selection the routine leaves the
document unchanged; the embedding is a total function, so the run
terminates normally with no error, a no-op over the empty set. -/
theorem C6_empty_selection_noop (d : Elem)
    (h : querySelectorAll d = []) : addAnchors d = d :=
  addAnchors_qsa_nil d h

/-- C6 witness on a document with no matching heading. -/
theorem C6_empty_selection_noop_witness : addAnchors plainDoc = plainDoc :=
  C6_empty_selection_noop plainDoc (by
    have hp : querySelectorAll (Elem.mk "p" [] [] []) = [] := by
      rw [querySelectorAll_mk]
      rfl
    have hh : querySelectorAll (Elem.mk "h2" [] [] []) = [] := by
      rw [querySelectorAll_mk]
      rfl
    show querySelectorAll
      (Elem.mk "body" [] [] [Elem.mk "p" [] [] [], Elem.mk "h2" [] [] []]) = []
    rw [querySelectorAll_mk, List.map_cons, List.map_cons, List.map_nil, hp, hh]
    rfl)

/-- C7: every heading selected by the routine gains the class
`has-anchor`, and the created link, inserted first, carries exactly the
class `heading-anchor`. -/
theorem C7_marker_classes {h : Elem} (hm : matchesSel h = true) :
    "has-anchor" ∈ (addAnchors h).classes ∧
    (addAnchors h).children.head? = some (anchorElem (idOf h)) ∧
    (anchorElem (idOf h)).classes = ["heading-anchor"] := by
  rw [addAnchors_match hm]
  exact ⟨self_mem_classListAdd _ _, rfl, rfl⟩

/-- C7 witness at the concrete `<h2 id="intro">` heading. -/
theorem C7_marker_classes_witness :
    "has-anchor" ∈ (addAnchors h2intro).classes ∧
    (addAnchors h2intro).children.head? = some (anchorElem (idOf h2intro)) ∧
    (anchorElem (idOf h2intro)).classes = ["heading-anchor"] :=
  C7_marker_classes (h := h2intro) rfl

/-- C8: the selection is the document-order (pre-order) node list
filtered by the selector; one run grows the total node count by exactly
the number of selected headings; every matching heading gains exactly
one child, the inserted anchor, as its first child; every non-matching
node keeps its child count — so no anchor is inserted anywhere else. -/
theorem C8_one_anchor_per_match (d : Elem) :
    querySelectorAll d = (preorder d).filter matchesSel ∧
    totalCount (addAnchors d) = totalCount d + (querySelectorAll d).length ∧
    (∀ h, Occurs h d →
      (matchesSel h = true →
        (addAnchors h).children.length = h.children.length + 1 ∧
        (addAnchors h).children.head? = some (anchorElem (idOf h))) ∧
      (matchesSel h = false →
        (addAnchors h).children.length = h.children.length)) := by
  refine ⟨querySelectorAll_eq_filter_preorder d, totalCount_addAnchors d, ?_⟩
  intro h _
  constructor
  · intro hm
    rw [addAnchors_match hm]
    constructor
    · simp [List.length_map]
    · rfl
  · intro hm
    rw [addAnchors_nomatch hm]
    simp [List.length_map]

/-- C8 witness at the spec's concrete scenario. -/
theorem C8_one_anchor_per_match_witness :
    totalCount (addAnchors sampleDoc) =
      totalCount sampleDoc + (querySelectorAll sampleDoc).length ∧
    (addAnchors h2intro).children.length = h2intro.children.length + 1 :=
  ⟨(C8_one_anchor_per_match sampleDoc).2.1,
   (((C8_one_anchor_per_match sampleDoc).2.2 h2intro
      (Occurs.child (List.mem_cons_self h2intro [h4note])
        (Occurs.refl h2intro))).1 rfl).1⟩

/-- C9: for every heading the routine modifies, everything other than
the inserted first child and the added class is preserved: tag, `id`
and all other attributes are unchanged and the pre-existing children
follow the inserted anchor in their original relative order (literally
unchanged whenever they contain no matching heading below them). -/
theorem C9_frame {h : Elem} (hm : matchesSel h = true) :
    (addAnchors h).tag = h.tag ∧
    (addAnchors h).attrs = h.attrs ∧
    getAttr (addAnchors h).attrs "id" = getAttr h.attrs "id" ∧
    (addAnchors h).children =
      anchorElem (idOf h) :: h.children.map addAnchors ∧
    ((∀ c ∈ h.children, querySelectorAll c = []) →
      (addAnchors h).children = anchorElem (idOf h) :: h.children) := by
  rw [addAnchors_match hm]
  refine ⟨rfl, rfl, rfl, rfl, ?_⟩
  intro hq
  simp only [Elem.children_mk]
  congr 1
  have hmap : h.children.map addAnchors = h.children.map id :=
    List.map_congr_left (fun x hx => addAnchors_qsa_nil x (hq x hx))
  rw [hmap, List.map_id]

/-- C9 witness at the concrete `<h2 id="intro">` heading. -/
theorem C9_frame_witness :
    (addAnchors h2intro).attrs = h2intro.attrs ∧
    (addAnchors h2intro).children =
      anchorElem (idOf h2intro) :: h2intro.children :=
  ⟨(C9_frame (h := h2intro) rfl).2.1,
   (C9_frame (h := h2intro) rfl).2.2.2.2
     (fun c hc => absurd hc (List.not_mem_nil c))⟩

/-- C10: assuming the DOMTokenList ordered-set invariant (the heading's
class list held `has-anchor` at most once before the first run), after
any positive number of runs the heading's class list holds `has-anchor`
exactly once, its first child is the inserted anchor, and each inserted
anchor's class list holds `heading-anchor` exactly once. -/
theorem C10_class_once {h : Elem} (hm : matchesSel h = true)
    (hc : h.classes.count "has-anchor" ≤ 1) (n : Nat) :
    ((addAnchors)^[n + 1] h).classes.count "has-anchor" = 1 ∧
    ((addAnchors)^[n + 1] h).children.head? = some (anchorElem (idOf h)) ∧
    (anchorElem (idOf h)).classes.count "heading-anchor" = 1 := by
  refine ⟨count_iterate_classes h hm hc n, ?_, rfl⟩
  rw [Function.iterate_succ_apply']
  have hm' : matchesSel ((addAnchors)^[n] h) = true := by
    rw [matchesSel_iterate]
    exact hm
  rw [addAnchors_match hm']
  simp only [Elem.children_mk, List.head?_cons]
  rw [idOf_iterate]

/-- C10 witness at the concrete `<h2 id="intro">` heading, one run. -/
theorem C10_class_once_witness :
    ((addAnchors)^[1] h2intro).classes.count "has-anchor" = 1 ∧
    ((addAnchors)^[1] h2intro).children.head? =
      some (anchorElem (idOf h2intro)) ∧
    (anchorElem (idOf h2intro)).classes.count "heading-anchor" = 1 :=
  C10_class_once (h := h2intro) rfl (by decide) 0

end HeadingAnchors
